import Mathlib

/-!
Verification of the Disaster Response Coordination Platform backend.

Shallow embedding of the cache-aside aggregation pipeline and its helper
utilities, translated from the JavaScript sources:
  backend/src/config/database.js        (cache store adapter)
  backend/src/utils/helpers.js          (retryWithBackoff, audit trail)
  backend/src/services/geocodingService.js
  the social-media service (SocialMediaService)
  backend/src/routes/imageVerification.js (status derivation)
  backend/src/routes/disasters.js       (create/update audit behaviour)

Machine time is modelled as Nat (milliseconds since epoch); JSON payloads
are modelled by a type parameter; exceptions are modelled with Except /
Option; functions that the source makes total by a catch-all handler are
total here.
-/

/-- Case-insensitive machinery: lower-case a string character by character,
mirroring the JavaScript toLowerCase() used throughout the services
(the keyword heuristics only involve ASCII). -/
def lowerStr (s : String) : String :=
  ⟨s.data.map Char.toLower⟩

/-- Decide whether pat occurs at the head of hay, mirroring the prefix test
that underlies the JavaScript String.includes used by the services. -/
def charsStartWith : List Char → List Char → Bool
  | _, [] => true
  | [], _ :: _ => false
  | c :: cs, p :: ps => c = p && charsStartWith cs ps

/-- Decide whether pat occurs as a contiguous substring of hay
(String.includes in the JavaScript sources). -/
def charsContain : List Char → List Char → Bool
  | [], pat => pat.isEmpty
  | c :: cs, pat => charsStartWith (c :: cs) pat || charsContain cs pat

/-- String-level substring test: hay.includes(pat) in the sources. -/
def strIncludes (hay pat : String) : Bool :=
  charsContain hay.data pat.data

/-! ## Cache store adapter (backend/src/config/database.js) -/

/-- One row of the cache table: value plus expires_at
(database.js stores value JSONB and an expires_at timestamp). -/
structure CacheRow (α : Type) where
  value : α
  expiresAt : Nat
deriving DecidableEq, Repr

/-- State of the Supabase connection as seen by getSupabase():
unconfigured (connectSupabase returned null for missing credentials),
unreachable (every query yields an error), or live with the cache table
contents. -/
inductive Conn (α : Type) where
  | unconfigured
  | unreachable
  | live (store : List (String × CacheRow α))
deriving DecidableEq, Repr

/-- Association-list lookup for the cache table keyed by the primary key
(the supabase select ... eq key ... single()). -/
def lookupKey {α : Type} : List (String × CacheRow α) → String → Option (CacheRow α)
  | [], _ => none
  | (k, row) :: rest, key => if k = key then some row else lookupKey rest key

/-- Deletion of every row with the given key
(the supabase delete ... eq key). -/
def deleteKey {α : Type} (store : List (String × CacheRow α)) (key : String) :
    List (String × CacheRow α) :=
  store.filter (fun p => p.1 ≠ key)

/-- getCachedData from database.js: returns null when the store is
unconfigured or any step errors; on a live store, a row whose
expires_at is strictly in the past is deleted and reported as a miss
(the source compares with new Date(data.expires_at) < new Date()).
Result is the returned value (none = null) paired with the store state
after the call. -/
def getCachedData {α : Type} (conn : Conn α) (key : String) (now : Nat) :
    Option α × Conn α :=
  match conn with
  | .unconfigured => (none, .unconfigured)
  | .unreachable => (none, .unreachable)
  | .live store =>
    match lookupKey store key with
    | none => (none, .live store)
    | some row =>
      if row.expiresAt < now then (none, .live (deleteKey store key))
      else (some row.value, .live store)

/-- setCachedData from database.js: a no-op when the store is
unconfigured or errors; on a live store an upsert of
(key, value, now + ttl). Errors are logged, never thrown. -/
def setCachedData {α : Type} (conn : Conn α) (key : String) (value : α)
    (ttl now : Nat) : Conn α :=
  match conn with
  | .unconfigured => .unconfigured
  | .unreachable => .unreachable
  | .live store => .live ((key, ⟨value, now + ttl⟩) :: deleteKey store key)

theorem lookupKey_deleteKey {α : Type} (store : List (String × CacheRow α))
    (key : String) : lookupKey (deleteKey store key) key = none := by
  induction store with
  | nil => rfl
  | cons p rest ih =>
    by_cases h : p.1 = key
    · simpa [deleteKey, List.filter, h] using ih
    · simpa [deleteKey, List.filter, h, lookupKey] using ih

/-- C3: a get strictly after the entry's expiresAt returns a miss (null)
and deletes the expired entry from the store as part of the read. -/
theorem cache_get_expired_spec {α : Type} (store : List (String × CacheRow α))
    (key : String) (now : Nat) (row : CacheRow α)
    (hfound : lookupKey store key = some row)
    (hexp : row.expiresAt < now) :
    (getCachedData (.live store) key now).1 = none ∧
    (getCachedData (.live store) key now).2 = .live (deleteKey store key) ∧
    lookupKey (deleteKey store key) key = none := by
  refine ⟨?_, ?_, lookupKey_deleteKey store key⟩ <;>
    simp [getCachedData, hfound, hexp]

/-- Concrete instance of cache_get_expired_spec: an entry expiring at time
100 read at time 101 misses and is removed. -/
theorem cache_get_expired_witness :
    (getCachedData (α := Nat) (.live [("k", ⟨7, 100⟩)]) "k" 101).1 = none ∧
    (getCachedData (α := Nat) (.live [("k", ⟨7, 100⟩)]) "k" 101).2 =
      .live (deleteKey [("k", ⟨7, 100⟩)] "k") ∧
    lookupKey (deleteKey (α := Nat) [("k", ⟨7, 100⟩)] "k") "k" = none :=
  cache_get_expired_spec [("k", ⟨7, 100⟩)] "k" 101 ⟨7, 100⟩ (by decide) (by decide)

/-- C8: with the persistent store unconfigured or unreachable, get returns
null for every key and set performs no mutation and does not raise
(both functions are total here, as the source catches every error):
the system behaves as with an always-empty cache, on which get also
misses on every key. -/
theorem cache_noop_when_unavailable_spec {α : Type} (key : String) (value : α)
    (ttl now : Nat) :
    getCachedData (α := α) .unconfigured key now = (none, .unconfigured) ∧
    getCachedData (α := α) .unreachable key now = (none, .unreachable) ∧
    setCachedData (α := α) .unconfigured key value ttl now = .unconfigured ∧
    setCachedData (α := α) .unreachable key value ttl now = .unreachable ∧
    getCachedData (α := α) (.live []) key now = (none, .live []) := by
  refine ⟨rfl, rfl, rfl, rfl, ?_⟩
  simp [getCachedData, lookupKey]

/-! ## Retry with backoff (backend/src/utils/helpers.js, retryWithBackoff) -/

/-- Observable trace of one retryWithBackoff run: the final outcome
(ok value, or the propagated error; error none is the JavaScript
throw lastError with lastError still undefined, reachable only with
maxRetries = 0), how many times the operation was invoked, and the
waits (in ms) performed between attempts, in order. -/
structure RetryTrace (ε α : Type) where
  outcome : Except (Option ε) α
  calls : Nat
  delays : List Nat
deriving Repr

/-- The loop body of retryWithBackoff: i is the current attempt index,
the second argument the number of attempts still allowed
(maxRetries - i). The operation is modelled by op, giving the outcome
of each attempt; on failure at any attempt but the last, the loop
waits baseDelay * 2 ^ i and continues. -/
def retryGo {ε α : Type} (op : Nat → Except ε α) (baseDelay : Nat) :
    Nat → Nat → RetryTrace ε α
  | _, 0 => ⟨.error none, 0, []⟩
  | i, r + 1 =>
    match op i with
    | .ok a => ⟨.ok a, 1, []⟩
    | .error e =>
      if r = 0 then ⟨.error (some e), 1, []⟩
      else
        let rest := retryGo op baseDelay (i + 1) r
        ⟨rest.outcome, rest.calls + 1, baseDelay * 2 ^ i :: rest.delays⟩

/-- retryWithBackoff from helpers.js (defaults maxRetries = 3,
baseDelay = 1000): run the loop from attempt 0. -/
def retryWithBackoff {ε α : Type} (op : Nat → Except ε α) (maxRetries baseDelay : Nat) :
    RetryTrace ε α :=
  retryGo op baseDelay 0 maxRetries

theorem retryGo_calls_le {ε α : Type} (op : Nat → Except ε α) (d : Nat) :
    ∀ r i, (retryGo op d i r).calls ≤ r := by
  intro r
  induction r with
  | zero => intro i; simp [retryGo]
  | succ s ih =>
    intro i
    cases h : op i with
    | ok a => simp [retryGo, h]
    | error e =>
      by_cases hs : s = 0
      · simp [retryGo, h, hs]
      · simp only [retryGo, h, hs, if_false]
        exact Nat.succ_le_succ (ih (i + 1))

theorem retryGo_calls_pos {ε α : Type} (op : Nat → Except ε α) (d : Nat) :
    ∀ r i, 1 ≤ r → 1 ≤ (retryGo op d i r).calls := by
  intro r i hr
  cases r with
  | zero => omega
  | succ s =>
    cases h : op i with
    | ok a => simp [retryGo, h]
    | error e =>
      by_cases hs : s = 0
      · simp [retryGo, h, hs]
      · simp only [retryGo, h, hs, if_false]
        omega

theorem retryGo_error_iff {ε α : Type} (op : Nat → Except ε α) (d : Nat) :
    ∀ r i, (∃ e, (retryGo op d i r).outcome = .error e) ↔
      (∀ j < r, ∃ err, op (i + j) = .error err) := by
  intro r
  induction r with
  | zero =>
    intro i
    constructor
    · intro _ j hj; omega
    · intro _; exact ⟨none, rfl⟩
  | succ s ih =>
    intro i
    cases h : op i with
    | ok a =>
      simp only [retryGo, h]
      constructor
      · rintro ⟨e, he⟩; exact absurd he (by simp)
      · intro hall
        obtain ⟨err, herr⟩ := hall 0 (by omega)
        rw [Nat.add_zero] at herr
        rw [h] at herr
        exact absurd herr (by simp)
    | error e =>
      by_cases hs : s = 0
      · subst hs
        simp only [retryGo, h, if_true]
        constructor
        · intro _ j hj
          obtain rfl : j = 0 := by omega
          exact ⟨e, by simpa using h⟩
        · intro _; exact ⟨some e, rfl⟩
      · simp only [retryGo, h, hs, if_false]
        rw [ih (i + 1)]
        constructor
        · intro hall j hj
          cases j with
          | zero => exact ⟨e, by simpa using h⟩
          | succ t =>
            obtain ⟨err, herr⟩ := hall t (by omega)
            exact ⟨err, by rw [← herr]; congr 1; omega⟩
        · intro hall j hj
          obtain ⟨err, herr⟩ := hall (j + 1) (by omega)
          exact ⟨err, by rw [← herr]; congr 1; omega⟩

theorem retryGo_all_fail {ε α : Type} (op : Nat → Except ε α) (d : Nat) :
    ∀ r i e, 1 ≤ r → (∀ j < r, ∃ err, op (i + j) = .error err) →
      op (i + r - 1) = .error e →
      (retryGo op d i r).outcome = .error (some e) := by
  intro r
  induction r with
  | zero => intro i e hr; omega
  | succ s ih =>
    intro i e _ hall hlast
    obtain ⟨e0, h0⟩ := hall 0 (by omega)
    rw [Nat.add_zero] at h0
    by_cases hs : s = 0
    · subst hs
      have : e0 = e := by
        rw [show i + 1 - 1 = i by omega] at hlast
        rw [h0] at hlast
        exact Except.error.inj hlast
      subst this
      simp [retryGo, h0]
    · simp only [retryGo, h0, hs, if_false]
      apply ih (i + 1) e (by omega)
      · intro j hj
        obtain ⟨err, herr⟩ := hall (j + 1) (by omega)
        exact ⟨err, by rw [← herr]; congr 1; omega⟩
      · rw [← hlast]; congr 1; omega

theorem retryGo_first_success {ε α : Type} (op : Nat → Except ε α) (d : Nat) :
    ∀ j r i a, j < r → op (i + j) = .ok a →
      (∀ j' < j, ∃ err, op (i + j') = .error err) →
      (retryGo op d i r).outcome = .ok a ∧ (retryGo op d i r).calls = j + 1 := by
  intro j
  induction j with
  | zero =>
    intro r i a hr hok _
    obtain ⟨s, rfl⟩ : ∃ s, r = s + 1 := ⟨r - 1, by omega⟩
    rw [Nat.add_zero] at hok
    simp [retryGo, hok]
  | succ t ih =>
    intro r i a hr hok hfail
    obtain ⟨s, rfl⟩ : ∃ s, r = s + 1 := ⟨r - 1, by omega⟩
    obtain ⟨e0, h0⟩ := hfail 0 (by omega)
    rw [Nat.add_zero] at h0
    have hs : s ≠ 0 := by omega
    have step := ih s (i + 1) a (by omega)
      (by rw [← hok]; congr 1; omega)
      (by
        intro j' hj'
        obtain ⟨err, herr⟩ := hfail (j' + 1) (by omega)
        exact ⟨err, by rw [← herr]; congr 1; omega⟩)
    simp only [retryGo, h0, hs, if_false]
    exact ⟨step.1, by rw [step.2]⟩

theorem retryGo_delays {ε α : Type} (op : Nat → Except ε α) (d : Nat) :
    ∀ r i, (retryGo op d i r).delays =
      (List.range ((retryGo op d i r).calls - 1)).map (fun k => d * 2 ^ (i + k)) := by
  intro r
  induction r with
  | zero => intro i; simp [retryGo]
  | succ s ih =>
    intro i
    cases h : op i with
    | ok a => simp [retryGo, h]
    | error e =>
      by_cases hs : s = 0
      · simp [retryGo, h, hs]
      · simp only [retryGo, h, hs, if_false]
        have hc : 1 ≤ (retryGo op d (i + 1) s).calls :=
          retryGo_calls_pos op d s (i + 1) (by omega)
        obtain ⟨c, hc'⟩ : ∃ c, (retryGo op d (i + 1) s).calls = c + 1 :=
          ⟨(retryGo op d (i + 1) s).calls - 1, by omega⟩
        rw [ih (i + 1), hc']
        simp only [Nat.add_sub_cancel, List.range_succ_eq_map, List.map_cons,
          List.map_map]
        refine congrArg₂ List.cons (by rw [Nat.add_zero]) ?_
        apply List.map_congr_left
        intro k _
        simp only [Function.comp_apply]
        rw [show i + Nat.succ k = i + 1 + k from by omega]

/-- C4: retryWithBackoff invokes the operation at most maxAttempts times;
an error is raised iff every attempt fails, and then it is exactly the
error of the last attempt; the first successful result is returned
(after exactly j + 1 invocations when the first success is attempt j);
and the wait after failed attempt i is baseDelay * 2 ^ i. -/
theorem retryWithBackoff_spec {ε α : Type} (op : Nat → Except ε α) (m d : Nat)
    (hm : 1 ≤ m) :
    (retryWithBackoff op m d).calls ≤ m
    ∧ ((∃ e, (retryWithBackoff op m d).outcome = .error e) ↔
        ∀ j < m, ∃ err, op j = .error err)
    ∧ (∀ e, (∀ j < m, ∃ err, op j = .error err) → op (m - 1) = .error e →
        (retryWithBackoff op m d).outcome = .error (some e))
    ∧ (∀ j a, j < m → op j = .ok a → (∀ j' < j, ∃ err, op j' = .error err) →
        (retryWithBackoff op m d).outcome = .ok a ∧
        (retryWithBackoff op m d).calls = j + 1)
    ∧ (retryWithBackoff op m d).delays =
        (List.range ((retryWithBackoff op m d).calls - 1)).map (fun k => d * 2 ^ k) := by
  refine ⟨retryGo_calls_le op d m 0, ?_, ?_, ?_, ?_⟩
  · rw [retryWithBackoff, retryGo_error_iff op d m 0]
    simp
  · intro e hall hlast
    exact retryGo_all_fail op d m 0 e hm (by simpa using hall) (by simpa using hlast)
  · intro j a hj hok hfail
    exact retryGo_first_success op d j m 0 a hj (by simpa using hok) (by simpa using hfail)
  · have := retryGo_delays op d m 0
    simpa using this

/-- Concrete instance of retryWithBackoff_spec: attempt 0 fails,
attempt 1 returns 1; two calls are made and the result is ok 1. -/
theorem retryWithBackoff_spec_witness :
    (retryWithBackoff (fun i => if i = 0 then Except.error (0 : Nat) else Except.ok (1 : Nat)) 2 5).outcome = Except.ok 1 ∧
    (retryWithBackoff (fun i => if i = 0 then Except.error (0 : Nat) else Except.ok (1 : Nat)) 2 5).calls = 2 := by
  have h := retryWithBackoff_spec
    (fun i => if i = 0 then Except.error (0 : Nat) else Except.ok (1 : Nat)) 2 5 (by omega)
  refine h.2.2.2.1 1 1 (by omega) rfl (fun j' hj' => ⟨0, ?_⟩)
  obtain rfl : j' = 0 := by omega
  rfl

/-! ## Social media heuristics (SocialMediaService) -/

/-- Urgent-tier keywords of _calculatePriorityScore. -/
def urgentKeywords : List String :=
  ["urgent", "sos", "emergency", "trapped", "medical", "help", "critical"]

/-- Moderate-tier keywords of _calculatePriorityScore. -/
def moderateKeywords : List String :=
  ["need", "assistance", "shelter", "food", "water", "supplies"]

/-- Low-tier keywords of _calculatePriorityScore. -/
def lowKeywords : List String :=
  ["update", "info", "volunteer", "available"]

/-- Number of keywords of the list present in the text
(each forEach branch of the source fires once per listed keyword). -/
def countMatches (kws : List String) (text : String) : Nat :=
  (kws.filter (fun k => strIncludes text k)).length

/-- _calculatePriorityScore from the social media service: the score starts
at 1; each urgent keyword present in the lower-cased content adds 3,
each moderate keyword adds 2, each low keyword adds 1; Math.min(10, score)
caps the result. -/
def calculatePriorityScore (content : String) : Nat :=
  let text := lowerStr content
  let score := 1
  let score := urgentKeywords.foldl
    (fun s k => if strIncludes text k then s + 3 else s) score
  let score := moderateKeywords.foldl
    (fun s k => if strIncludes text k then s + 2 else s) score
  let score := lowKeywords.foldl
    (fun s k => if strIncludes text k then s + 1 else s) score
  min 10 score

theorem foldl_add_if_count (text : String) (w : Nat) :
    ∀ (kws : List String) (s : Nat),
      kws.foldl (fun acc k => if strIncludes text k then acc + w else acc) s =
        s + w * countMatches kws text := by
  intro kws
  induction kws with
  | nil => intro s; simp [countMatches]
  | cons k rest ih =>
    intro s
    by_cases h : strIncludes text k = true
    · simp only [List.foldl_cons, h, if_true, ih, countMatches, List.filter_cons,
        List.length_cons]
      ring
    · simp [List.foldl_cons, h, ih, countMatches, List.filter_cons]

theorem countMatches_pos {kws : List String} {text k : String}
    (hk : k ∈ kws) (h : strIncludes text k = true) :
    1 ≤ countMatches kws text :=
  List.length_pos_of_mem (List.mem_filter.2 ⟨hk, h⟩)

/-- C5: the priority score equals
min 10 (1 + 3 * urgent + 2 * moderate + 1 * low) where each count is the
number of that tier's keywords present case-insensitively; any content
with an urgent-tier keyword scores at least 1 + 3 = 4, and every score
lies in the range 1..10. -/
theorem priority_score_spec (content : String) :
    calculatePriorityScore content =
      min 10 (1 + 3 * countMatches urgentKeywords (lowerStr content)
        + 2 * countMatches moderateKeywords (lowerStr content)
        + 1 * countMatches lowKeywords (lowerStr content))
    ∧ ((∃ k ∈ urgentKeywords, strIncludes (lowerStr content) k = true) →
        1 + 3 ≤ calculatePriorityScore content)
    ∧ 1 ≤ calculatePriorityScore content
    ∧ calculatePriorityScore content ≤ 10 := by
  have hval : calculatePriorityScore content =
      min 10 (1 + 3 * countMatches urgentKeywords (lowerStr content)
        + 2 * countMatches moderateKeywords (lowerStr content)
        + 1 * countMatches lowKeywords (lowerStr content)) := by
    simp only [calculatePriorityScore, foldl_add_if_count]
  refine ⟨hval, ?_, ?_, ?_⟩
  · rintro ⟨k, hk, hmatch⟩
    have := countMatches_pos hk hmatch
    rw [hval]
    omega
  · rw [hval]; omega
  · rw [hval]; omega

/-- Concrete instance of priority_score_spec: content holding the
urgent-tier keywords urgent and trapped scores at least 4. -/
theorem priority_score_witness :
    1 + 3 ≤ calculatePriorityScore "URGENT: resident trapped on roof" :=
  (priority_score_spec "URGENT: resident trapped on roof").2.1
    ⟨"urgent", by decide, by decide⟩

/-- The category keyword groups of _categorizeReport, in the source's
insertion order (JavaScript Object.entries preserves it). -/
def reportCategories : List (String × List String) :=
  [("medical", ["medical", "injured", "hospital", "ambulance", "doctor"]),
   ("shelter", ["shelter", "housing", "accommodation", "place to stay"]),
   ("food_water", ["food", "water", "hungry", "thirsty", "supplies"]),
   ("rescue", ["trapped", "rescue", "stuck", "help", "sos"]),
   ("information", ["update", "info", "status", "news", "report"]),
   ("volunteer", ["volunteer", "helping", "assist", "support"]),
   ("infrastructure", ["power", "electricity", "road", "bridge", "water system"])]

/-- A category group matches when some keyword of it occurs in the text. -/
def categoryMatches (text : String) (p : String × List String) : Bool :=
  p.2.any (fun k => strIncludes text k)

/-- The for-of loop of _categorizeReport: return the first group whose
keyword list matches, general when none does. -/
def categorizeGo (text : String) : List (String × List String) → String
  | [] => "general"
  | p :: rest => if categoryMatches text p then p.1 else categorizeGo text rest

/-- _categorizeReport from the social media service. -/
def categorizeReport (content : String) : String :=
  categorizeGo (lowerStr content) reportCategories

theorem categorizeGo_eq_find (text : String) :
    ∀ cats, categorizeGo text cats =
      (match cats.find? (categoryMatches text) with
       | some p => p.1
       | none => "general") := by
  intro cats
  induction cats with
  | nil => rfl
  | cons p rest ih =>
    by_cases h : categoryMatches text p
    · simp [categorizeGo, h, List.find?_cons_of_pos]
    · rw [List.find?_cons_of_neg _ (by simpa using h)]
      simpa [categorizeGo, h] using ih

theorem categorizeGo_mem (text : String) :
    ∀ cats, categorizeGo text cats = "general" ∨
      categorizeGo text cats ∈ cats.map Prod.fst := by
  intro cats
  induction cats with
  | nil => left; rfl
  | cons p rest ih =>
    by_cases h : categoryMatches text p
    · right; simp [categorizeGo, h]
    · rcases ih with h' | h'
      · left; simpa [categorizeGo, h] using h'
      · right; simp only [categorizeGo, h, if_false, List.map_cons]
        exact List.mem_cons_of_mem _ h'

/-- C6: classification returns the name of the first keyword group, in the
fixed order medical, shelter, food_water, rescue, information, volunteer,
infrastructure, that has a case-insensitive substring match in the text,
and general when no group matches; the result is always exactly one of
these eight labels, and repeated invocation on the same text returns the
same label (the classifier is a pure function of the text). -/
theorem categorize_report_spec (content : String) :
    categorizeReport content =
      (match reportCategories.find? (categoryMatches (lowerStr content)) with
       | some p => p.1
       | none => "general")
    ∧ (categorizeReport content = "general" ∨
        categorizeReport content ∈ reportCategories.map Prod.fst)
    ∧ categorizeReport content = categorizeReport content :=
  ⟨categorizeGo_eq_find (lowerStr content) reportCategories,
   categorizeGo_mem (lowerStr content) reportCategories, rfl⟩

/-- Negative-word list of _analyzeSentiment. -/
def negativeWords : List String :=
  ["help", "trapped", "emergency", "urgent", "disaster", "damage",
   "destroyed", "need"]

/-- Positive-word list of _analyzeSentiment. -/
def positiveWords : List String :=
  ["safe", "rescued", "available", "restored", "volunteer", "helping"]

/-- _analyzeSentiment from the social media service: keyword-count
majority, ties give neutral. -/
def analyzeSentiment (content : String) : String :=
  let text := lowerStr content
  let negativeCount := countMatches negativeWords text
  let positiveCount := countMatches positiveWords text
  if positiveCount < negativeCount then "negative"
  else if negativeCount < positiveCount then "positive"
  else "neutral"

/-! ## Social media service: fetch pipeline and mock fallback -/

/-- A social media report as the service shapes it. Raw provider posts
carry none in the enrichment fields; _processReports fills them.
Fields of the source not touched by the verified claims (createdAt,
metrics, url, extracted locations) are omitted. -/
structure SMReport where
  id : String
  platform : String
  content : String
  author : String
  priorityScore : Option Nat
  sentiment : Option String
  category : Option String
deriving DecidableEq, Repr

/-- Result shape of a fetchReports call: the reports, the source tag
(twitter, bluesky or mock), totalFound, and the disaster id field. -/
structure SMResult where
  reports : List SMReport
  source : String
  totalFound : Nat
  disasterId : Option String
deriving DecidableEq, Repr

/-- The five canned posts of _fetchMockReports, with their exact content
strings. -/
def mockSocialPosts : List SMReport :=
  [⟨"mock_1", "mock_twitter",
    "#floodrelief Need food and water in Lower East Side. Families trapped on 3rd floor. #emergency #NYC",
    "citizen_reporter1", none, none, none⟩,
   ⟨"mock_2", "mock_twitter",
    "Shelter available at Community Center on Main St. Can accommodate 50 people. #disasterrelief #shelter",
    "relief_org_official", none, none, none⟩,
   ⟨"mock_3", "mock_twitter",
    "URGENT: Medical assistance needed at 123 Oak Street. Elderly person trapped. #SOS #medical #emergency",
    "first_responder", none, none, none⟩,
   ⟨"mock_4", "mock_twitter",
    "Power restored to downtown area. Water still not safe to drink. Boil water advisory in effect. #update",
    "city_emergency_mgmt", none, none, none⟩,
   ⟨"mock_5", "mock_twitter",
    "Volunteers needed at Red Cross center. Bring supplies if possible. #volunteer #help #disaster",
    "volunteer_coordinator", none, none, none⟩]

/-- _fetchMockReports: when the keyword list is non-empty, keep exactly the
canned posts whose content contains some keyword case-insensitively;
with no keywords all five posts are returned. Never fails. -/
def fetchMockReports (keywords : List String) (disasterId : Option String) :
    SMResult :=
  let filtered :=
    if 0 < keywords.length then
      mockSocialPosts.filter (fun r =>
        keywords.any (fun k => strIncludes (lowerStr r.content) (lowerStr k)))
    else mockSocialPosts
  ⟨filtered, "mock", filtered.length, disasterId⟩

/-- JavaScript truthiness of an optional string credential: present and
non-empty. -/
def truthy : Option String → Bool
  | none => false
  | some s => !s.isEmpty

/-- The two live social providers. -/
inductive SMProvider where
  | twitter
  | bluesky
deriving DecidableEq, Repr

/-- Name tag a live provider puts in the result's source field. -/
def smProviderName : SMProvider → String
  | .twitter => "twitter"
  | .bluesky => "bluesky"

/-- Credentials configuration of SocialMediaService. -/
structure SMConfig where
  twitterBearerToken : Option String
  blueskyIdentifier : Option String
  blueskyPassword : Option String

/-- The constructor's service selection: twitter when its bearer token is
set, else bluesky when both its credentials are, else the mock service
(none here). -/
def smChosen (cfg : SMConfig) : Option SMProvider :=
  if truthy cfg.twitterBearerToken then some .twitter
  else if truthy cfg.blueskyIdentifier && truthy cfg.blueskyPassword then
    some .bluesky
  else none

/-- _processReports: enrich every report with its priority score, sentiment
and category. -/
def processReports (reports : List SMReport) : List SMReport :=
  reports.map (fun r =>
    { r with
      priorityScore := some (calculatePriorityScore r.content)
      sentiment := some (analyzeSentiment r.content)
      category := some (categorizeReport r.content) })

/-- fetchReports of SocialMediaService: on a cache hit return the cached
result. On a miss, consult the selected service (a live provider's
outcome is given by env, none meaning the call threw; the mock service
always succeeds), process the reports and stamp the disaster id; if the
live call threw, the catch block returns the mock variant directly
(unprocessed). Cache writes are not modelled here; they are covered by
the cache store adapter above. -/
def fetchReports (cfg : SMConfig) (env : SMProvider → Option (List SMReport))
    (cache : Option SMResult) (disasterId : String) (keywords : List String) :
    SMResult :=
  match cache with
  | some r => r
  | none =>
    let tried : Option SMResult :=
      match smChosen cfg with
      | some p => (env p).map (fun reports =>
          ⟨reports, smProviderName p, reports.length, none⟩)
      | none => some (fetchMockReports keywords none)
    match tried with
    | some base =>
      { base with
        reports := processReports base.reports
        disasterId := some disasterId }
    | none => fetchMockReports keywords (some disasterId)

/-- C10: the mock social-media fetch returns exactly the canned posts whose
content contains one of the keywords as a case-insensitive substring;
an empty keyword list returns all five canned posts; and some non-empty
keyword list yields an empty report list while still succeeding with
source mock. -/
theorem mock_social_fetch_filter_spec :
    (∀ keywords : List String, 0 < keywords.length →
      (fetchMockReports keywords none).reports =
        mockSocialPosts.filter (fun r =>
          keywords.any (fun k => strIncludes (lowerStr r.content) (lowerStr k))))
    ∧ (fetchMockReports [] none).reports = mockSocialPosts
    ∧ (mockSocialPosts.length = 5)
    ∧ (∃ kws : List String, kws ≠ [] ∧
        (fetchMockReports kws (some "d1")).reports = [] ∧
        (fetchMockReports kws (some "d1")).source = "mock") := by
  refine ⟨?_, rfl, rfl, ⟨["zzqq"], by decide, ?_, rfl⟩⟩
  · intro keywords hk
    simp [fetchMockReports, hk]
  · decide

/-- Concrete instance of mock_social_fetch_filter_spec: searching the
canned posts for the keyword food keeps exactly the posts whose content
mentions it. -/
theorem mock_social_fetch_filter_witness :
    (fetchMockReports ["food"] none).reports =
      mockSocialPosts.filter (fun r =>
        (["food"] : List String).any
          (fun k => strIncludes (lowerStr r.content) (lowerStr k))) :=
  mock_social_fetch_filter_spec.1 ["food"] (by decide)

/-! ## Geocoding service (backend/src/services/geocodingService.js) -/

/-- A normalized geocode result. Provider-specific fields not touched by
the verified claims (components, accuracy) are omitted; coordinates are
exact rationals. -/
structure GeocodeResult where
  lat : ℚ
  lng : ℚ
  formattedAddress : String
  source : String
deriving DecidableEq, Repr

/-- The three geocoding providers. -/
inductive GeoProvider where
  | google
  | mapbox
  | nominatim
deriving DecidableEq, Repr

/-- Credentials configuration of GeocodingService. -/
structure GeoConfig where
  googleMapsApiKey : Option String
  mapboxToken : Option String

/-- The constructor's service selection: google when its API key is set,
else mapbox when its token is set, else nominatim. Fixed once at
initialization. -/
def geoService (cfg : GeoConfig) : GeoProvider :=
  if truthy cfg.googleMapsApiKey then .google
  else if truthy cfg.mapboxToken then .mapbox
  else .nominatim

/-- The mock coordinate table of _geocodeMock, keyed by the lower-cased
location name. -/
def mockLocationTable : List (String × ℚ × ℚ) :=
  [("manhattan, nyc", (40.7831, -73.9712)),
   ("brooklyn, nyc", (40.6782, -73.9442)),
   ("miami, fl", (25.7617, -80.1918)),
   ("houston, tx", (29.7604, -95.3698)),
   ("los angeles, ca", (34.0522, -118.2437)),
   ("chicago, il", (41.8781, -87.6298))]

/-- _geocodeMock: known locations get their table coordinates; unknown ones
get coordinates near New York offset by the Math.random() draws, which
are passed in here as the noise pair (each drawn from
(Math.random() - 0.5) * 0.1). The formatted address is the query itself
and the source tag is mock. -/
def geocodeMock (locationName : String) (noise : ℚ × ℚ) : GeocodeResult :=
  let coords :=
    (mockLocationTable.lookup (lowerStr locationName)).getD
      (40.7128 + noise.1, -74.0060 + noise.2)
  ⟨coords.1, coords.2, locationName, "mock"⟩

/-- geocode of GeocodingService: on a cache hit return the cached result;
on a miss consult the single provider selected at initialization (its
outcome given by env, none meaning the call threw or found no result);
on provider failure the catch block returns the mock fallback. Cache
writes are not modelled here; they are covered by the cache store
adapter above. -/
def geocode (cfg : GeoConfig) (env : GeoProvider → Option GeocodeResult)
    (cache : Option GeocodeResult) (locationName : String) (noise : ℚ × ℚ) :
    GeocodeResult :=
  match cache with
  | some r => r
  | none =>
    match env (geoService cfg) with
    | some r => r
    | none => geocodeMock locationName noise

/-- Modelled from the spec (for comparison with geocode, claim C1): the
claimed behaviour in which the first provider in the priority order
google, mapbox, nominatim to return a result wins, and the mock
fallback is used only after all three have failed. -/
def geocodeClaimed (env : GeoProvider → Option GeocodeResult)
    (cache : Option GeocodeResult) (locationName : String) (noise : ℚ × ℚ) :
    GeocodeResult :=
  match cache with
  | some r => r
  | none =>
    match env .google with
    | some r => r
    | none =>
      match env .mapbox with
      | some r => r
      | none =>
        match env .nominatim with
        | some r => r
        | none => geocodeMock locationName noise

/-- C1 counterexample: with both the google key and the mapbox token
configured, cache missing, google failing and mapbox returning a
result, the code falls back to mock instead of consulting mapbox, so
the claimed provider-chain behaviour does not hold. -/
theorem geocode_no_provider_chain_cex :
    (geocode ⟨some "g-key", some "m-token"⟩
        (fun p => match p with
          | .mapbox => some ⟨1, 2, "Somewhere", "mapbox"⟩
          | _ => none)
        none "somewhere" (0, 0)).source = "mock"
    ∧ (geocodeClaimed
        (fun p => match p with
          | .mapbox => some ⟨1, 2, "Somewhere", "mapbox"⟩
          | _ => none)
        none "somewhere" (0, 0)).source = "mapbox"
    ∧ geocode ⟨some "g-key", some "m-token"⟩
        (fun p => match p with
          | .mapbox => some ⟨1, 2, "Somewhere", "mapbox"⟩
          | _ => none)
        none "somewhere" (0, 0) ≠
      geocodeClaimed
        (fun p => match p with
          | .mapbox => some ⟨1, 2, "Somewhere", "mapbox"⟩
          | _ => none)
        none "somewhere" (0, 0) := by
  refine ⟨rfl, rfl, fun h => absurd (congrArg GeocodeResult.source h) (by decide)⟩

/-- C1 (amended): the provider is selected once, at initialization, by key
priority (google when its key is configured, else mapbox when its token
is, else nominatim); on a cache miss exactly that one provider is
consulted — the outcome depends on no other provider — and its result,
when it returns one, is the returned result unmerged; when it fails the
service falls back directly to mock; on a cache hit the cached result
is returned. -/
theorem geocode_single_provider_spec (cfg : GeoConfig)
    (env env' : GeoProvider → Option GeocodeResult)
    (cache : Option GeocodeResult) (locationName : String) (noise : ℚ × ℚ) :
    (truthy cfg.googleMapsApiKey = true → geoService cfg = .google)
    ∧ (truthy cfg.googleMapsApiKey = false → truthy cfg.mapboxToken = true →
        geoService cfg = .mapbox)
    ∧ (truthy cfg.googleMapsApiKey = false → truthy cfg.mapboxToken = false →
        geoService cfg = .nominatim)
    ∧ (∀ r, env (geoService cfg) = some r →
        geocode cfg env none locationName noise = r)
    ∧ (env (geoService cfg) = none →
        geocode cfg env none locationName noise = geocodeMock locationName noise)
    ∧ (env (geoService cfg) = env' (geoService cfg) →
        geocode cfg env cache locationName noise =
          geocode cfg env' cache locationName noise)
    ∧ (∀ r, cache = some r → geocode cfg env cache locationName noise = r) := by
  refine ⟨?_, ?_, ?_, ?_, ?_, ?_, ?_⟩
  · intro h; simp [geoService, h]
  · intro h1 h2; simp [geoService, h1, h2]
  · intro h1 h2; simp [geoService, h1, h2]
  · intro r h; simp [geocode, h]
  · intro h; simp [geocode, h]
  · intro h
    cases cache with
    | some r => rfl
    | none => simp only [geocode, h]
  · intro r h; subst h; rfl

/-- Concrete instance of geocode_single_provider_spec: with no credentials
the nominatim outcome is returned as is. -/
theorem geocode_single_provider_witness :
    geocode ⟨none, none⟩ (fun _ => some ⟨3, 4, "X", "nominatim"⟩) none "X" (0, 0) =
      ⟨3, 4, "X", "nominatim"⟩ :=
  (geocode_single_provider_spec ⟨none, none⟩
    (fun _ => some ⟨3, 4, "X", "nominatim"⟩)
    (fun _ => some ⟨3, 4, "X", "nominatim"⟩) none "X" (0, 0)).2.2.2.1
    ⟨3, 4, "X", "nominatim"⟩ rfl

/-! ## Official updates pipeline -/

/-- A normalized official update record. -/
structure OfficialUpdate where
  source : String
  title : String
  content : String
  publishedAt : Nat
deriving DecidableEq, Repr

/-- Result shape of an official-updates fetch: the updates and the
result-level source tag the route inspects. -/
structure OUResult where
  updates : List OfficialUpdate
  source : String
deriving DecidableEq, Repr

/-- Insertion into a list kept sorted by publish time descending. -/
def insertDesc (u : OfficialUpdate) : List OfficialUpdate → List OfficialUpdate
  | [] => [u]
  | v :: vs =>
    if v.publishedAt ≤ u.publishedAt then u :: v :: vs else v :: insertDesc u vs

/-- Sort updates by publish time descending (newest first). -/
def sortByPublishedDesc (us : List OfficialUpdate) : List OfficialUpdate :=
  us.foldr insertDesc []

/-- Modelled from the spec: the officialUpdatesService implementation
(fetchUpdates) is not in the repository snapshot under src — only its
route callers are. Following spec section 4.4: check the cache; on a
miss fan out to the scraped sources (each outcome in outcomes, none
meaning that source failed), skip failed sources, concatenate, OR the
keyword filters across the provided keywords (case-insensitive
substring match against title plus content), sort by publish time
descending, and when all sources fail return the mock variant (source
tag mock, canned updates given by mock) instead of propagating an
error. -/
def fetchUpdates (outcomes : List (Option (List OfficialUpdate)))
    (cache : Option OUResult) (keywords : List String)
    (mock : List OfficialUpdate) : OUResult :=
  match cache with
  | some r => r
  | none =>
    if outcomes.all Option.isNone then ⟨mock, "mock"⟩
    else
      let collected := (outcomes.filterMap id).flatten
      let filtered :=
        if keywords.isEmpty then collected
        else collected.filter (fun u =>
          keywords.any (fun k =>
            strIncludes (lowerStr (u.title ++ " " ++ u.content)) (lowerStr k)))
      ⟨sortByPublishedDesc filtered, "aggregated"⟩

/-- C2: when every live source fails on a cache miss, each aggregation
fetch — geocode, social-media reports, official updates — still returns
a result value to its caller (the embedded pipelines are total, exactly
because every source failure is caught inside them), and that result is
the mock variant, tagged source mock. -/
theorem pipeline_all_sources_fail_mock_spec
    (gcfg : GeoConfig) (genv : GeoProvider → Option GeocodeResult)
    (locationName : String) (noise : ℚ × ℚ)
    (scfg : SMConfig) (senv : SMProvider → Option (List SMReport))
    (disasterId : String) (keywords : List String)
    (outcomes : List (Option (List OfficialUpdate))) (oukeywords : List String)
    (mock : List OfficialUpdate)
    (hg : ∀ p, genv p = none)
    (hs : ∀ p, senv p = none)
    (ho : outcomes.all Option.isNone = true) :
    (geocode gcfg genv none locationName noise).source = "mock"
    ∧ (geocode gcfg genv none locationName noise) = geocodeMock locationName noise
    ∧ (fetchReports scfg senv none disasterId keywords).source = "mock"
    ∧ (fetchUpdates outcomes none oukeywords mock).source = "mock" := by
  refine ⟨?_, ?_, ?_, ?_⟩
  · simp [geocode, hg, geocodeMock]
  · simp [geocode, hg]
  · cases hc : smChosen scfg with
    | some p => simp [fetchReports, hc, hs, fetchMockReports]
    | none => simp [fetchReports, hc, fetchMockReports]
  · simp [fetchUpdates, ho]

/-- Concrete instance of pipeline_all_sources_fail_mock_spec: with no
credentials anywhere and every source failing, all three pipelines
report source mock. -/
theorem pipeline_all_sources_fail_mock_witness :
    (geocode ⟨some "g", none⟩ (fun _ => none) none "Miami, FL" (0, 0)).source =
      "mock"
    ∧ (geocode ⟨some "g", none⟩ (fun _ => none) none "Miami, FL" (0, 0)) =
      geocodeMock "Miami, FL" (0, 0)
    ∧ (fetchReports ⟨some "t", none, none⟩ (fun _ => none) none "d1"
        ["flood"]).source = "mock"
    ∧ (fetchUpdates [none, none] none [] []).source = "mock" :=
  pipeline_all_sources_fail_mock_spec ⟨some "g", none⟩ (fun _ => none)
    "Miami, FL" (0, 0) ⟨some "t", none, none⟩ (fun _ => none) "d1" ["flood"]
    [none, none] [] [] (fun _ => rfl) (fun _ => rfl) rfl

/-! ## Image verification status (backend/src/routes/imageVerification.js) -/

/-- The status derivation both the single and the batch verification
handlers perform on the AI analysis: start from pending; authentic with
confidence at least 80 gives verified; not authentic or confidence
below 50 gives rejected. -/
def deriveVerificationStatus (isAuthentic : Bool) (confidence : Int) : String :=
  if isAuthentic = true ∧ 80 ≤ confidence then "verified"
  else if isAuthentic = false ∨ confidence < 50 then "rejected"
  else "pending"

/-- C7: the derived status is verified exactly for authentic results with
confidence at least 80, rejected exactly for inauthentic results or
confidence below 50, pending exactly for authentic results with
confidence in 50..79; the three outcomes are mutually exclusive (the
characterizations are exact) and exhaustive. -/
theorem verification_status_spec (a : Bool) (c : Int) :
    (deriveVerificationStatus a c = "verified" ↔ a = true ∧ 80 ≤ c)
    ∧ (deriveVerificationStatus a c = "rejected" ↔ a = false ∨ c < 50)
    ∧ (deriveVerificationStatus a c = "pending" ↔ a = true ∧ 50 ≤ c ∧ c < 80)
    ∧ (deriveVerificationStatus a c = "verified" ∨
        deriveVerificationStatus a c = "rejected" ∨
        deriveVerificationStatus a c = "pending") := by
  unfold deriveVerificationStatus
  cases a <;> split_ifs <;> simp_all
  all_goals omega

/-! ## Disaster audit trail (helpers.js and routes/disasters.js) -/

/-- One audit trail entry (createAuditEntry in helpers.js). The details
object is modelled opaquely as a string. -/
structure AuditEntry where
  action : String
  userId : String
  timestamp : Nat
  details : String
deriving DecidableEq, Repr

/-- createAuditEntry from helpers.js. -/
def createAuditEntry (action userId : String) (now : Nat) (details : String) :
    AuditEntry :=
  ⟨action, userId, now, details⟩

/-- addAuditEntry from helpers.js: spread the existing trail and append the
new entry. (The defensive Array.isArray check of the source is the
identity here since trails are typed as lists.) -/
def addAuditEntry (trail : List AuditEntry) (action userId : String)
    (now : Nat) (details : String) : List AuditEntry :=
  trail ++ [createAuditEntry action userId now details]

/-- The audit trail written by POST /api/disasters: addAuditEntry on the
empty trail with action create. -/
def createDisasterAuditTrail (userId : String) (now : Nat) (title : String) :
    List AuditEntry :=
  addAuditEntry [] "create" userId now title

/-- The audit trail written by PUT /api/disasters/:id: addAuditEntry on the
existing trail with action update. -/
def updateDisasterAuditTrail (existing : List AuditEntry) (userId : String)
    (now : Nat) (changes : String) : List AuditEntry :=
  addAuditEntry existing "update" userId now changes

/-- C9: every mutation appends exactly one entry: the new trail is the old
one with a single entry of the given action, user, timestamp and
details appended, all previous entries preserved unchanged in order
(the old trail is the prefix of the new one); creation starts from the
empty trail and yields a one-entry trail with action create; update
appends one entry with action update. -/
theorem audit_trail_append_spec (t : List AuditEntry) (a u : String)
    (now : Nat) (d title changes : String) :
    addAuditEntry t a u now d = t ++ [⟨a, u, now, d⟩]
    ∧ (addAuditEntry t a u now d).length = t.length + 1
    ∧ (addAuditEntry t a u now d).take t.length = t
    ∧ createDisasterAuditTrail u now title = [⟨"create", u, now, title⟩]
    ∧ (createDisasterAuditTrail u now title).length = 1
    ∧ updateDisasterAuditTrail t u now changes = t ++ [⟨"update", u, now, changes⟩] := by
  refine ⟨rfl, by simp [addAuditEntry], ?_, rfl, rfl, rfl⟩
  simp [addAuditEntry, createAuditEntry, List.take_left]
